import Mathlib

/-!
Verification development for the benchener HTTP load generator
(src/report.rs, src/runner.rs, src/config.rs).

Shallow embedding conventions:
* Rust `f64` values (latencies in milliseconds, kilobytes read, durations in
  seconds) are modelled as exact rationals `ℚ`; the numeric claims of the spec
  are about exact arithmetic (nearest-rank indices, population variance), and
  the inputs appearing in the claims are small integers on which `f64`
  arithmetic is exact.
* Rust `usize`/`u16` counters are modelled as `Nat` (they only ever grow by
  small increments, far from overflow).
* The external world (HTTP transport outcomes, join results of spawned tasks,
  URL parsing, TCP connect, and which arm of each `tokio::select!` race wins)
  is supplied as explicit data parameters, so every engine function is a pure,
  executable function of the environment.
-/

/-- Mirror of `TestType` from src/config.rs. -/
inductive TestType where
  | RequestCount
  | Duration
  | Both
deriving DecidableEq, Repr

/-- The fields of `Config` (src/config.rs) that the engine logic reads.
Durations/timeouts configure the external transport and watcher threads and do
not enter the logic verified here. -/
structure Config where
  requests : Nat
  concurrency : Nat
  test_type : TestType
  url : String
deriving DecidableEq, Repr

/-- Mirror of `Report` from src/report.rs.  `duration` is seconds as `ℚ`,
`latencies` is milliseconds as `ℚ` in completion order, `total_html_read` is
kilobytes as `ℚ`. -/
structure Report where
  server_software : String
  host : String
  port : Nat
  completed_requests : Nat
  failed_requests : Nat
  timeouts : Nat
  total_html_read : ℚ
  non_2xx_responses : Nat
  concurrency : Nat
  duration : ℚ
  latencies : List ℚ
deriving DecidableEq, Repr

/-- Mirror of `Report::default` (src/report.rs lines 21-38). -/
def Report.default : Report where
  server_software := ""
  host := ""
  port := 0
  completed_requests := 0
  failed_requests := 0
  timeouts := 0
  total_html_read := 0
  non_2xx_responses := 0
  concurrency := 0
  duration := 0
  latencies := []

/-- The success branch of `send_request` (src/runner.rs lines 223-245),
executed inside one critical section of the report lock: add the body size in
KB, push the latency, increment `completed_requests`, count a non-2xx status,
and set `server_software` once (first non-empty header wins).  `htmlLen` is
the body length in bytes, `server` is the optional `server` response header. -/
def recordSuccess (r : Report) (latencyMs : ℚ) (htmlLen : Nat) (status : Nat)
    (server : Option String) : Report :=
  { r with
    total_html_read := r.total_html_read + (htmlLen : ℚ) / 1024,
    latencies := r.latencies ++ [latencyMs],
    completed_requests := r.completed_requests + 1,
    non_2xx_responses :=
      r.non_2xx_responses + (if status / 100 ≠ 2 then 1 else 0),
    server_software :=
      if r.server_software = "" then
        match server with
        | some s => s
        | none => r.server_software
      else r.server_software }

/-- The failure branch of `send_request` (src/runner.rs lines 246-253),
executed inside one critical section: increment `failed_requests`, and
`timeouts` when the error kind is a timeout. -/
def recordFailure (r : Report) (isTimeout : Bool) : Report :=
  { r with
    failed_requests := r.failed_requests + 1,
    timeouts := r.timeouts + (if isTimeout then 1 else 0) }

/-- Every mutation of the shared `Report` performed under its lock anywhere in
the source: the two branches of `send_request`, the `duration` updates of the
watcher threads (src/runner.rs lines 273, 310, 328), the host/port write of
`is_url_reachable` (lines 354-356), the `concurrency` write of `Runner::new`
(line 41), and the in-place latency sort of the report printers (lines 397 and
477). -/
inductive AggOp where
  | success (latencyMs : ℚ) (htmlLen : Nat) (status : Nat) (server : Option String)
  | failure (isTimeout : Bool)
  | setDuration (d : ℚ)
  | setHostPort (h : String) (p : Nat)
  | setConcurrency (c : Nat)
  | sortLatencies
deriving DecidableEq, Repr

/-- Apply one locked mutation to the report. -/
def applyOp (r : Report) : AggOp → Report
  | .success lat len st sv => recordSuccess r lat len st sv
  | .failure t => recordFailure r t
  | .setDuration d => { r with duration := d }
  | .setHostPort h p => { r with host := h, port := p }
  | .setConcurrency c => { r with concurrency := c }
  | .sortLatencies =>
      { r with latencies := r.latencies.mergeSort (fun a b => decide (a ≤ b)) }

/-- A run of the aggregator: the critical sections execute in some serial
order because all writers share one lock; `ops` is that serialization. -/
def applyOps (r : Report) (ops : List AggOp) : Report :=
  ops.foldl applyOp r

theorem applyOps_nil (r : Report) : applyOps r [] = r := rfl

theorem applyOps_cons (r : Report) (op : AggOp) (ops : List AggOp) :
    applyOps r (op :: ops) = applyOps (applyOp r op) ops := rfl

/-- Outcome of one `client.get_async` call plus body read, as seen by
`send_request` (src/runner.rs lines 215-256).  `ok lat body status server`
models `Ok(res)` where `body = none` means `res.text().await` failed (the
`?` operator then propagates an error out of `send_request` before the report
lock is ever taken); `err isTimeout` models `Err(err)`. -/
inductive ReqResult where
  | ok (latencyMs : ℚ) (body : Option Nat) (status : Nat) (server : Option String)
  | err (isTimeout : Bool)
deriving DecidableEq, Repr

/-- Effect of `send_request` on the shared report.  The `Ok` branch with a
failed body read returns early via `?` and touches nothing; the `Ok` branch
with a read body records a success; the `Err` branch records a failure. -/
def send_request (r : Report) : ReqResult → Report
  | .ok _ none _ _ => r
  | .ok lat (some len) st sv => recordSuccess r lat len st sv
  | .err t => recordFailure r t

/-- Whether `send_request` returns `Ok(())`: it returns an error exactly when
the body read fails (the `res.text().await?` line). -/
def send_request_ok : ReqResult → Bool
  | .ok _ none _ _ => false
  | .ok _ (some _) _ _ => true
  | .err _ => true

/-- Result of awaiting one spawned request task in `run_batch`
(src/runner.rs line 209, `handle.await??`): either the join succeeded and
yielded the task's `ReqResult`-driven return value, or the join itself failed
(`JoinError`, the task panicked/was aborted before finishing). -/
inductive TaskResult where
  | joined (q : ReqResult)
  | joinFail
deriving DecidableEq, Repr

/-- Report effect of one spawned task.  A task that is joined normally has
applied its `send_request` effect; a task whose join fails died without
recording an outcome. -/
def taskEffect (r : Report) : TaskResult → Report
  | .joined q => send_request r q
  | .joinFail => r

/-- A task whose outcome is recorded in the aggregator: a joined task whose
transport either errored (counted failed) or succeeded with a readable body
(counted completed).  A joined task whose body read failed, and a task whose
join failed, record nothing. -/
def accounted : TaskResult → Bool
  | .joined (.ok _ (some _) _ _) => true
  | .joined (.ok _ none _ _) => false
  | .joined (.err _) => true
  | .joinFail => false

/-- Mirror of `run_batch` (src/runner.rs lines 199-212).  All `count` tasks
are spawned up front, so every task's report effect applies regardless of how
the subsequent `handle.await??` loop fares; the returned `Bool` is whether
that loop reached `Ok(())`, i.e. every handle joined and every task's
`send_request` returned `Ok` (the loop short-circuits at the first error, but
an error exists iff some task fails).  `tasks` lists the environment-supplied
outcome of each spawned task. -/
def run_batch (r : Report) (tasks : List TaskResult) : Report × Bool :=
  (tasks.foldl taskEffect r,
   tasks.all fun t =>
     match t with
     | .joined q => send_request_ok q
     | .joinFail => false)

/-- The full-batch loop of `run_req_count_test` (src/runner.rs lines 93-97):
`n` batches of `conc` requests, each batch consuming the next `conc` task
outcomes from `env`.  The `Result` of `run_batch` is discarded by the source
(`let _ = ...`), so the loop never stops early; we return the final report,
the unconsumed environment and the sizes of the batches dispatched. -/
def runCountBatches (conc : Nat) (r : Report) (env : List TaskResult) :
    Nat → Report × List TaskResult × List Nat
  | 0 => (r, env, [])
  | n + 1 =>
    let r1 := (run_batch r (env.take conc)).1
    let out := runCountBatches conc r1 (env.drop conc) n
    (out.1, out.2.1, conc :: out.2.2)

/-- Mirror of `run_req_count_test` (src/runner.rs lines 77-113): run
`requests / conc` full batches of size `conc`, then one remainder batch of
size `requests % conc` when that is nonzero.  Returns the final report and
the list of dispatched batch sizes. -/
def run_req_count_test (requests conc : Nat) (r : Report)
    (env : List TaskResult) : Report × List Nat :=
  let total := requests / conc
  let rem := requests % conc
  let out := runCountBatches conc r env total
  if rem > 0 then
    ((run_batch out.1 (out.2.1.take rem)).1, out.2.2 ++ [rem])
  else
    (out.1, out.2.2)

/-- Mirror of `run_duration_test` (src/runner.rs lines 116-145): loop forever
racing a batch of size `conc` against the termination signal.  `sched` gives
the winner of each successive race (`true` = the signal wins).  A batch is
launched (its tasks spawned) on every race; when the signal wins, the batch
in flight is abandoned: the runtime is dropped right after `block_on`, which
cancels its still-pending tasks, so no outcome of the abandoned batch is
recorded (the policy stated in spec section 5).  With an exhausted schedule
the model stops issuing races. -/
def run_duration_test (conc : Nat) (r : Report) (env : List TaskResult) :
    List Bool → Report × List Nat
  | [] => (r, [])
  | w :: rest =>
    if w then (r, [conc])
    else
      let r1 := (run_batch r (env.take conc)).1
      let out := run_duration_test conc r1 (env.drop conc) rest
      (out.1, conc :: out.2)

/-- The full-batch loop of `run_both_tests` (src/runner.rs lines 170-176):
up to `n` batches of size `conc`, each raced against `notify.notified()`.
`sched` gives each race's winner (`true` = signal wins; an exhausted schedule
means the batch keeps winning).  When the signal wins a race, the loop
`break`s: the launched batch is abandoned and its outcomes are not recorded
(runtime drop cancels pending tasks), and the returned flag is `true`.
Returns (report, unconsumed env, unconsumed schedule, launched sizes, broke). -/
def runBothFullLoop (conc : Nat) (r : Report) (env : List TaskResult)
    (sched : List Bool) : Nat → Report × List TaskResult × List Bool × List Nat × Bool
  | 0 => (r, env, sched, [], false)
  | n + 1 =>
    if sched.headD false then
      (r, env.drop conc, sched.tail, [conc], true)
    else
      let r1 := (run_batch r (env.take conc)).1
      let out := runBothFullLoop conc r1 (env.drop conc) sched.tail n
      (out.1, out.2.1, out.2.2.1, conc :: out.2.2.2.1, out.2.2.2.2)

/-- Mirror of `run_both_tests` (src/runner.rs lines 148-196).  After the
full-batch loop, control falls through to the remainder block whether the
loop finished normally or broke out on the termination signal.  When the loop
broke, `Notify::notify_waiters` has already fired and a fresh
`notify.notified()` future can never complete (the signal is one-shot and
stores no permit), so the remainder batch is launched and runs to completion
with its outcomes recorded.  When the loop did not break, the remainder batch
is raced for real: a signal win abandons it (`return`, outcomes unrecorded),
otherwise it completes and records. -/
def run_both_tests (requests conc : Nat) (r : Report) (env : List TaskResult)
    (sched : List Bool) : Report × List Nat :=
  let total := requests / conc
  let rem := requests % conc
  let out := runBothFullLoop conc r env sched total
  if rem > 0 then
    if out.2.2.2.2 then
      ((run_batch out.1 (out.2.1.take rem)).1, out.2.2.2.1 ++ [rem])
    else
      if out.2.2.1.headD false then (out.1, out.2.2.2.1 ++ [rem])
      else ((run_batch out.1 (out.2.1.take rem)).1, out.2.2.2.1 ++ [rem])
  else
    (out.1, out.2.2.2.1)

/-- Host and port resolved from the target URL by the `url` crate in
`is_url_reachable`: `Url::parse` plus `host_str` plus
`port_or_known_default().unwrap_or(80)`.  URL parsing is external; `none`
models an invalid URL or a URL without a hostname. -/
structure UrlParts where
  host : String
  port : Nat
deriving DecidableEq, Repr

/-- Mirror of `is_url_reachable` (src/runner.rs lines 346-386).  On a parse
failure the function returns early with an error and the report is untouched.
Otherwise the host and port are written into the report, and only then is the
bare TCP connection attempted; `connectOk` is that attempt's outcome (the
external world).  Returns the report and whether the function returned `Ok`. -/
def is_url_reachable (r : Report) (parse : Option UrlParts) (connectOk : Bool) :
    Report × Bool :=
  match parse with
  | none => (r, false)
  | some u => ({ r with host := u.host, port := u.port }, connectOk)

/-- Mirror of the report initialisation in `Runner::new` (src/runner.rs lines
40-41): the default report with the configured concurrency recorded. -/
def runner_new (conc : Nat) : Report :=
  { Report.default with concurrency := conc }

/-- Mirror of `Runner::run` (src/runner.rs lines 51-63): pre-flight
reachability check first — on failure return
`Err(format!("Failed to resolve {url}"))` before dispatching any batch —
then dispatch on the test type. -/
def run (cfg : Config) (parse : Option UrlParts) (connectOk : Bool)
    (env : List TaskResult) (sched : List Bool) :
    Except String (Report × List Nat) :=
  let pre := is_url_reachable (runner_new cfg.concurrency) parse connectOk
  if pre.2 = false then
    Except.error ("Failed to resolve " ++ cfg.url)
  else
    match cfg.test_type with
    | TestType.RequestCount =>
        Except.ok (run_req_count_test cfg.requests cfg.concurrency pre.1 env)
    | TestType.Duration =>
        Except.ok (run_duration_test cfg.concurrency pre.1 env sched)
    | TestType.Both =>
        Except.ok (run_both_tests cfg.requests cfg.concurrency pre.1 env sched)

/-- Mirror of `BUCKET_COUNT` (src/runner.rs line 20). -/
def BUCKET_COUNT : Nat := 10

/-- The `percentile` closure of `print_latency_distribution` (src/runner.rs
lines 564-567): `idx = ((p / 100) * N) as usize`, then index at
`idx.min(N - 1)`.  The `as usize` cast truncates toward zero and saturates at
zero on negative values, which on rationals is exactly `Nat.floor`. -/
def percentile (l : List ℚ) (p : ℚ) : ℚ :=
  l.getD (min (Nat.floor (p / 100 * (l.length : ℚ))) (l.length - 1)) 0

/-- Mirror of `print_latency_distribution` (src/runner.rs lines 558-581): on
an empty latency list return immediately producing nothing, otherwise report
the 50th, 75th, 90th and 99th percentiles. -/
def print_latency_distribution (l : List ℚ) : Option (ℚ × ℚ × ℚ × ℚ) :=
  if l = [] then none
  else some (percentile l 50, percentile l 75, percentile l 90, percentile l 99)

/-- The mean computed by `print_request_timings_summary` (src/runner.rs line
437): `Σx / N`. -/
def mean (l : List ℚ) : ℚ :=
  l.sum / (l.length : ℚ)

/-- The variance computed by `print_request_timings_summary` (src/runner.rs
lines 438-442): `Σ(x - mean)^2 / N` — population variance, dividing by `N`.
The reported standard deviation is its square root (line 443). -/
def variance (l : List ℚ) : ℚ :=
  (l.map fun x => (x - mean l) ^ 2).sum / (l.length : ℚ)

/-- The bucket index computed by `print_latency_histogram` (src/runner.rs
line 594): `(latency / bucket_size).min(9.0) as usize`.  For
`bucketSize ≠ 0` this is `min (floor (latency / bucketSize)) 9` (the cast
saturates negatives to zero, which `Nat.floor` does too).  When
`bucketSize = 0` the `f64` division yields `NaN` (for latency 0) or `±inf`:
`f64::min(NaN, 9.0) = 9.0` and `f64::min(inf, 9.0) = 9.0`, both cast to 9,
while `f64::min(-inf, 9.0) = -inf` casts (saturating) to 0. -/
def bucketIndex (bucketSize latency : ℚ) : Nat :=
  if bucketSize = 0 then
    if latency < 0 then 0 else BUCKET_COUNT - 1
  else
    min (Nat.floor (latency / bucketSize)) (BUCKET_COUNT - 1)

/-- One iteration of the histogram-filling loop (src/runner.rs lines
593-596): `histogram[bucket] += 1`. -/
def histStep (bucketSize : ℚ) (h : List Nat) (latency : ℚ) : List Nat :=
  h.set (bucketIndex bucketSize latency)
    (h.getD (bucketIndex bucketSize latency) 0 + 1)

/-- The bucket counts computed by `print_latency_histogram` for a nonempty
list: `max` is the last element (the input is sorted by the caller),
`bucket_size = max / BUCKET_COUNT`, and each latency increments its bucket. -/
def histogramOf (l : List ℚ) : List Nat :=
  l.foldl (histStep (l.getLastD 0 / (BUCKET_COUNT : ℚ)))
    (List.replicate BUCKET_COUNT 0)

/-- Mirror of `print_latency_histogram` (src/runner.rs lines 584-605): on an
empty latency list return immediately producing nothing, otherwise produce
the bucket counts. -/
def print_latency_histogram (l : List ℚ) : Option (List Nat) :=
  if l = [] then none else some (histogramOf l)

/-- Closed form of the full-batch loop of count mode: after `n` batches the
report has absorbed the first `n * conc` task effects, the environment has
advanced by `n * conc`, and `n` batches of size `conc` were dispatched. -/
theorem runCountBatches_spec (conc n : Nat) (r : Report) (env : List TaskResult) :
    runCountBatches conc r env n =
      (List.foldl taskEffect r (env.take (n * conc)),
        env.drop (n * conc), List.replicate n conc) := by
  induction n generalizing r env with
  | zero => simp [runCountBatches]
  | succ n ih =>
      have hmul : (n + 1) * conc = conc + n * conc := by
        rw [Nat.succ_mul, Nat.add_comm]
      simp only [runCountBatches, run_batch, ih, hmul, List.take_add,
        List.foldl_append, List.replicate_succ, List.drop_drop]

/-- The final count-mode report is a fold of the task effects over the
consumed prefix of the environment. -/
theorem run_req_count_report (requests conc : Nat) (r : Report)
    (env : List TaskResult) :
    (run_req_count_test requests conc r env).1 =
      List.foldl taskEffect r
        (env.take (requests / conc * conc + requests % conc)) := by
  simp only [run_req_count_test, runCountBatches_spec, run_batch]
  split_ifs with hrem
  · rw [List.take_add, List.foldl_append]
  · have h0 : requests % conc = 0 := by omega
    rw [h0, Nat.add_zero]

/-- The batch sizes dispatched by count mode depend only on the batch plan,
never on any task outcome. -/
theorem run_req_count_sizes (requests conc : Nat) (r : Report)
    (env : List TaskResult) :
    (run_req_count_test requests conc r env).2 =
      List.replicate (requests / conc) conc ++
        (if requests % conc > 0 then [requests % conc] else []) := by
  simp only [run_req_count_test, runCountBatches_spec]
  split_ifs with hrem <;> simp

/-- Folding task effects adds one to `completed + failed` per accounted task:
a success with a readable body bumps `completed`, a transport error bumps
`failed`, and a body-read failure or failed join bumps neither. -/
theorem foldl_taskEffect_counts (ts : List TaskResult) (r : Report) :
    (List.foldl taskEffect r ts).completed_requests
        + (List.foldl taskEffect r ts).failed_requests
      = r.completed_requests + r.failed_requests + ts.countP accounted := by
  induction ts generalizing r with
  | nil => simp
  | cons t ts ih =>
      rw [List.foldl_cons, ih, List.countP_cons]
      cases t with
      | joinFail => simp [taskEffect, accounted]
      | joined q =>
          cases q with
          | ok lat body st sv =>
              cases body with
              | none => simp [taskEffect, send_request, accounted]
              | some len =>
                  simp [taskEffect, send_request, recordSuccess, accounted]
                  omega
          | err tmo =>
              simp [taskEffect, send_request, recordFailure, accounted]
              omega

/-- Every computed bucket index is in range. -/
theorem bucketIndex_lt (bucketSize latency : ℚ) :
    bucketIndex bucketSize latency < BUCKET_COUNT := by
  unfold bucketIndex BUCKET_COUNT
  split_ifs <;> omega

/-- Incrementing an in-range cell of a `Nat` list increments its sum. -/
theorem sum_set_succ (h : List Nat) (i : Nat) (hi : i < h.length) :
    (h.set i (h.getD i 0 + 1)).sum = h.sum + 1 := by
  induction h generalizing i with
  | nil => simp at hi
  | cons a t ih =>
      cases i with
      | zero => simp [List.set]; omega
      | succ i =>
          simp only [List.set, List.getD_cons_succ, List.sum_cons]
          rw [ih i (by simpa using hi)]
          omega

/-- One histogram step preserves the bucket count and adds one to the total. -/
theorem histStep_invariant (bs : ℚ) (h : List Nat) (lat : ℚ)
    (hlen : h.length = BUCKET_COUNT) :
    (histStep bs h lat).length = BUCKET_COUNT ∧
      (histStep bs h lat).sum = h.sum + 1 := by
  constructor
  · simp [histStep, hlen]
  · exact sum_set_succ h _ (by rw [hlen]; exact bucketIndex_lt bs lat)

/-- Folding the histogram loop over any latency list counts each element
exactly once. -/
theorem foldl_histStep (bs : ℚ) (l : List ℚ) (h : List Nat)
    (hlen : h.length = BUCKET_COUNT) :
    (l.foldl (histStep bs) h).sum = h.sum + l.length ∧
      (l.foldl (histStep bs) h).length = BUCKET_COUNT := by
  induction l generalizing h with
  | nil => simpa
  | cons x xs ih =>
      have hstep := histStep_invariant bs h x hlen
      have hrec := ih (histStep bs h x) hstep.1
      rw [List.foldl_cons]
      refine ⟨?_, hrec.2⟩
      rw [hrec.1, hstep.2, List.length_cons]
      omega

/-- The histogram bucket counts sum to the number of latencies. -/
theorem histogramOf_sum (l : List ℚ) : (histogramOf l).sum = l.length := by
  have := foldl_histStep (l.getLastD 0 / (BUCKET_COUNT : ℚ)) l
    (List.replicate BUCKET_COUNT 0) (by simp)
  rw [histogramOf, this.1]
  simp

/-- The histogram always has exactly `BUCKET_COUNT` buckets. -/
theorem histogramOf_length (l : List ℚ) :
    (histogramOf l).length = BUCKET_COUNT := by
  exact (foldl_histStep (l.getLastD 0 / (BUCKET_COUNT : ℚ)) l
    (List.replicate BUCKET_COUNT 0) (by simp)).2

/-- A value equal to the histogram maximum lands in the last bucket: with
`bucketSize = m / 10` the quotient `m / bucketSize` is exactly 10 when
`m ≠ 0` (clamped to 9), and the `m = 0` case goes through the zero
`bucket_size` branch, which also yields the last bucket. -/
theorem bucketIndex_max (m : ℚ) :
    bucketIndex (m / (BUCKET_COUNT : ℚ)) m = BUCKET_COUNT - 1 := by
  by_cases hm : m = 0
  · simp [bucketIndex, hm]
  · have hbs : m / (BUCKET_COUNT : ℚ) ≠ 0 := by
      simp [div_eq_zero_iff, hm, BUCKET_COUNT]
    rw [bucketIndex, if_neg hbs]
    have hq : m / (m / (BUCKET_COUNT : ℚ)) = (BUCKET_COUNT : ℚ) := by
      rw [div_div_eq_mul_div, mul_comm, mul_div_assoc, div_self hm, mul_one]
    rw [hq]
    norm_num [BUCKET_COUNT]

/-- The aggregator invariant `len(latencies) = completedRequests` is
preserved by every locked mutation. -/
theorem applyOps_latencies_completed (ops : List AggOp) (r : Report)
    (h : r.latencies.length = r.completed_requests) :
    (applyOps r ops).latencies.length = (applyOps r ops).completed_requests := by
  induction ops generalizing r with
  | nil => simpa [applyOps]
  | cons op ops ih =>
      rw [applyOps_cons]
      apply ih
      cases op <;> simp [applyOp, recordSuccess, recordFailure, h]

/-- The aggregator invariant `timeouts ≤ failedRequests` is preserved by
every locked mutation. -/
theorem applyOps_timeouts_le (ops : List AggOp) (r : Report)
    (h : r.timeouts ≤ r.failed_requests) :
    (applyOps r ops).timeouts ≤ (applyOps r ops).failed_requests := by
  induction ops generalizing r with
  | nil => simpa [applyOps]
  | cons op ops ih =>
      rw [applyOps_cons]
      apply ih
      cases op with
      | failure t => cases t <;> simp [applyOp, recordFailure] <;> omega
      | success lat len st sv => simpa [applyOp, recordSuccess]
      | setDuration d => simpa [applyOp]
      | setHostPort hh p => simpa [applyOp]
      | setConcurrency c => simpa [applyOp]
      | sortLatencies => simpa [applyOp]

/-- The control outputs of the both-mode full-batch loop (remaining schedule,
launched batch sizes, whether the loop broke on the signal) do not depend on
the report or on any task outcome. -/
theorem runBothFullLoop_indep (conc n : Nat) (r r' : Report)
    (env env' : List TaskResult) (sched : List Bool) :
    (runBothFullLoop conc r env sched n).2.2.1
        = (runBothFullLoop conc r' env' sched n).2.2.1
      ∧ (runBothFullLoop conc r env sched n).2.2.2.1
        = (runBothFullLoop conc r' env' sched n).2.2.2.1
      ∧ (runBothFullLoop conc r env sched n).2.2.2.2
        = (runBothFullLoop conc r' env' sched n).2.2.2.2 := by
  induction n generalizing r r' env env' sched with
  | zero => exact ⟨rfl, rfl, rfl⟩
  | succ n ih =>
      by_cases hw : sched.head?.getD false = true
      · simp [runBothFullLoop, hw]
      · have hrec := ih ((run_batch r (env.take conc)).1)
          ((run_batch r' (env'.take conc)).1) (env.drop conc) (env'.drop conc)
          sched.tail
        simp only [runBothFullLoop, List.headD_eq_head?_getD] at hw ⊢
        simp only [hw, if_false, Bool.false_eq_true]
        exact ⟨hrec.1, by rw [hrec.2.1], hrec.2.2⟩

/-- The batch sizes launched by both mode: the sizes from the full-batch
loop, then the remainder batch whenever the remainder is nonzero — whether or
not the loop broke out on the termination signal. -/
theorem run_both_tests_sizes (requests conc : Nat) (r : Report)
    (env : List TaskResult) (sched : List Bool) :
    (run_both_tests requests conc r env sched).2
      = (runBothFullLoop conc r env sched (requests / conc)).2.2.2.1
        ++ (if requests % conc > 0 then [requests % conc] else []) := by
  simp only [run_both_tests]
  split_ifs <;> simp_all

/-- C1: the claim states that in Both mode, once the termination signal wins
a race against one of the full batches, the engine stops immediately and the
remainder batch is never launched.  The code violates this: with
requests = 5, concurrency = 2 (batch plan [2, 2] with remainder 1) and the
signal winning the race against the first full batch, the engine breaks out
of the full-batch loop but then falls through to the remainder block and
launches the remainder batch of size 1 — the launched batch sizes are
[2, 1], not [2].  Worse, the one-shot signal has already fired, so the
remainder race can never be won by the signal and the remainder batch runs
to completion. -/
theorem c1_remainder_launched_after_signal_win :
    (run_both_tests 5 2 (runner_new 2) [] [true]).2 = [2, 1]
      ∧ 5 / 2 = 2 ∧ 5 % 2 = 1 :=
  ⟨rfl, rfl, rfl⟩

/-- C2 counterexample: a failure to retrieve a launched task's outcome does
not abort the run.  With requests = 2, concurrency = 1, the first batch's
join fails (`run_batch` returns an error), yet the engine still dispatches
the second batch: the dispatched batch sizes are [1, 1]. -/
theorem c2_join_failure_not_fatal :
    (run_batch (runner_new 1) [TaskResult.joinFail]).2 = false
      ∧ (run_req_count_test 2 1 (runner_new 1)
          [TaskResult.joinFail, TaskResult.joined (ReqResult.err false)]).2
        = [1, 1] :=
  ⟨rfl, rfl⟩

/-- C2 amended: a task-retrieval (join) failure makes `run_batch` return an
error, but every mode driver discards that result, so the sequence of batches
issued is completely independent of task outcomes: the run continues with the
next batch rather than aborting. -/
theorem c2_join_failure_absorbed :
    (∀ (r : Report) (tasks : List TaskResult),
        TaskResult.joinFail ∈ tasks → (run_batch r tasks).2 = false)
      ∧ (∀ (requests conc : Nat) (r r' : Report) (env env' : List TaskResult),
          (run_req_count_test requests conc r env).2
            = (run_req_count_test requests conc r' env').2)
      ∧ (∀ (conc : Nat) (r r' : Report) (env env' : List TaskResult)
          (sched : List Bool),
          (run_duration_test conc r env sched).2
            = (run_duration_test conc r' env' sched).2)
      ∧ (∀ (requests conc : Nat) (r r' : Report) (env env' : List TaskResult)
          (sched : List Bool),
          (run_both_tests requests conc r env sched).2
            = (run_both_tests requests conc r' env' sched).2) := by
  refine ⟨?_, ?_, ?_, ?_⟩
  · intro r tasks hmem
    apply Bool.eq_false_iff.mpr
    intro hall
    have := List.all_eq_true.mp hall _ hmem
    simp at this
  · intro requests conc r r' env env'
    rw [run_req_count_sizes, run_req_count_sizes]
  · intro conc r r' env env' sched
    induction sched generalizing r r' env env' with
    | nil => rfl
    | cons w rest ih =>
        cases w with
        | true => rfl
        | false =>
            simp only [run_duration_test, Bool.false_eq_true, if_false]
            exact congrArg (List.cons conc) (ih _ _ _ _)
  · intro requests conc r r' env env' sched
    rw [run_both_tests_sizes, run_both_tests_sizes,
      (runBothFullLoop_indep conc (requests / conc) r r' env env' sched).2.1]

theorem c2_join_failure_absorbed_witness :
    (run_batch Report.default [TaskResult.joinFail]).2 = false :=
  c2_join_failure_absorbed.1 Report.default [TaskResult.joinFail]
    (List.mem_singleton.mpr rfl)

/-- C3 counterexample: a single request whose status line succeeds but whose
body read fails is recorded as neither completed nor failed (the `?` on
`res.text()` returns from `send_request` before the report lock is taken),
so a normally completing count-mode run of one request ends with
`completedRequests + failedRequests = 0`, not the configured 1. -/
theorem c3_body_read_failure_uncounted :
    ((run_req_count_test 1 1 (runner_new 1)
        [TaskResult.joined (ReqResult.ok 5 none 200 none)]).1).completed_requests
        = 0
      ∧ ((run_req_count_test 1 1 (runner_new 1)
        [TaskResult.joined (ReqResult.ok 5 none 200 none)]).1).failed_requests
        = 0 :=
  ⟨rfl, rfl⟩

/-- C3 amended: for a count-mode run in which every dispatched request is
accounted — its transport either errors (recorded as failed) or succeeds
with a readable body (recorded as completed) — and the environment supplies
exactly `requests` outcomes, the final report satisfies
`completedRequests + failedRequests = requestCount`.  A request whose body
read fails after a successful status line, or whose join fails, is recorded
as neither, making the sum fall short. -/
theorem c3_completed_plus_failed (requests conc : Nat) (env : List TaskResult)
    (hlen : env.length = requests)
    (hacc : ∀ t ∈ env, accounted t = true) :
    ((run_req_count_test requests conc
          (runner_new conc) env).1).completed_requests
      + ((run_req_count_test requests conc
          (runner_new conc) env).1).failed_requests
      = requests := by
  rw [run_req_count_report]
  have hsum : requests / conc * conc + requests % conc = requests := by
    rw [Nat.mul_comm]
    exact Nat.div_add_mod requests conc
  rw [hsum, ← hlen, List.take_length, foldl_taskEffect_counts]
  have hcount : env.countP accounted = env.length := by
    rw [List.countP_eq_length]
    exact hacc
  simp [runner_new, Report.default, hcount, hlen]

theorem c3_completed_plus_failed_witness :
    ((run_req_count_test 2 1 (runner_new 1)
        [TaskResult.joined (ReqResult.err true),
          TaskResult.joined (ReqResult.ok 3 (some 100) 200 none)]).1).completed_requests
      + ((run_req_count_test 2 1 (runner_new 1)
        [TaskResult.joined (ReqResult.err true),
          TaskResult.joined (ReqResult.ok 3 (some 100) 200 none)]).1).failed_requests
      = 2 :=
  c3_completed_plus_failed 2 1
    [TaskResult.joined (ReqResult.err true),
      TaskResult.joined (ReqResult.ok 3 (some 100) 200 none)]
    rfl (by decide)

/-- C4: the reported percentile over a nonempty sorted latency list is the
nearest-rank element at index `floor((p / 100) * N)` clamped to `N - 1`, and
on the ten sorted latencies 1..10 the 50th percentile is 6 and the 99th is
10. -/
theorem c4_percentile_nearest_rank (l : List ℚ) (p : ℚ) (hl : l ≠ []) :
    percentile l p
        = l.getD (min (Nat.floor (p / 100 * (l.length : ℚ))) (l.length - 1)) 0
      ∧ percentile [1, 2, 3, 4, 5, 6, 7, 8, 9, 10] 50 = 6
      ∧ percentile [1, 2, 3, 4, 5, 6, 7, 8, 9, 10] 99 = 10 := by
  refine ⟨rfl, ?_, ?_⟩
  · rw [percentile]
    norm_num
  · rw [percentile]
    have h9 : Nat.floor ((99 : ℚ) / 100 * 10) = 9 := by
      rw [show (99 : ℚ) / 100 * 10 = 99 / 10 by norm_num]
      rw [show (99 : ℚ) / 10 = (99 : ℕ) / (10 : ℕ) by push_cast; ring]
      rw [Nat.floor_div_nat]
      simp
    simp [h9]

theorem c4_percentile_witness :
    percentile [1, 2, 3, 4, 5, 6, 7, 8, 9, 10] 50 = 6 :=
  (c4_percentile_nearest_rank [1] 0 (by decide)).2.1

/-- C5: for a nonempty latency list the histogram uses
`bucketWidth = max / 10` (`max` being the last element of the sorted input),
every value's bucket index is `floor(value / bucketWidth)` clamped to 9 and
is always in range, the bucket counts sum to the number of latencies, a
value equal to the maximum falls in the last bucket, and an empty list
produces no histogram. -/
theorem c5_histogram_properties (l : List ℚ) (hl : l ≠ []) :
    print_latency_histogram l = some (histogramOf l)
      ∧ (histogramOf l).sum = l.length
      ∧ (histogramOf l).length = BUCKET_COUNT
      ∧ bucketIndex (l.getLastD 0 / (BUCKET_COUNT : ℚ)) (l.getLastD 0)
        = BUCKET_COUNT - 1
      ∧ (∀ bs v : ℚ, bucketIndex bs v < BUCKET_COUNT)
      ∧ print_latency_histogram [] = none := by
  refine ⟨?_, histogramOf_sum l, histogramOf_length l, bucketIndex_max _,
    fun bs v => bucketIndex_lt bs v, rfl⟩
  simp [print_latency_histogram, hl]

theorem c5_histogram_witness :
    (histogramOf [(1 : ℚ), 2]).sum = [(1 : ℚ), 2].length :=
  (c5_histogram_properties [1, 2] (by decide)).2.1

/-- C6: the reported mean is `Σx / N` and the reported standard deviation is
the population standard deviation `sqrt(Σ(x - mean)² / N)` — dividing by N,
not N - 1; for the latencies [2,4,4,4,5,5,7,9] the mean is 5, the variance
is 4 and the standard deviation is 2. -/
theorem c6_mean_population_stdev (l : List ℚ) (hl : l ≠ []) :
    mean l = l.sum / (l.length : ℚ)
      ∧ variance l = (l.map fun x => (x - mean l) ^ 2).sum / (l.length : ℚ)
      ∧ mean [2, 4, 4, 4, 5, 5, 7, 9] = 5
      ∧ variance [2, 4, 4, 4, 5, 5, 7, 9] = 4
      ∧ Real.sqrt ((variance [2, 4, 4, 4, 5, 5, 7, 9] : ℚ) : ℝ) = 2 := by
  have hm : mean [2, 4, 4, 4, 5, 5, 7, 9] = 5 := by
    rw [mean]
    norm_num
  have hvar : variance [2, 4, 4, 4, 5, 5, 7, 9] = 4 := by
    rw [variance, hm]
    norm_num
  refine ⟨rfl, rfl, hm, hvar, ?_⟩
  rw [hvar]
  have h4 : ((4 : ℚ) : ℝ) = (2 : ℝ) ^ 2 := by norm_num
  rw [h4, Real.sqrt_sq (by norm_num : (0 : ℝ) ≤ 2)]

theorem c6_mean_stdev_witness :
    mean [2, 4, 4, 4, 5, 5, 7, 9] = 5 :=
  (c6_mean_population_stdev [1] (by decide)).2.2.1

/-- C7: at every observation point of the aggregator — any state reachable
from the default report by a serialization of locked mutations, the initial
state included — `len(latencies) = completedRequests`; a success appends
exactly one latency and increments completedRequests by exactly one inside
the same critical section, and no other locked operation changes the latency
count or completedRequests (the report printers' in-place sort permutes the
latencies but preserves their number). -/
theorem c7_latencies_invariant :
    (∀ ops : List AggOp,
        (applyOps Report.default ops).latencies.length
          = (applyOps Report.default ops).completed_requests)
      ∧ (∀ (r : Report) (lat : ℚ) (len st : Nat) (sv : Option String),
          (applyOp r (AggOp.success lat len st sv)).latencies
              = r.latencies ++ [lat]
            ∧ (applyOp r (AggOp.success lat len st sv)).completed_requests
              = r.completed_requests + 1)
      ∧ (∀ (r : Report) (t : Bool),
          (applyOp r (AggOp.failure t)).latencies = r.latencies
            ∧ (applyOp r (AggOp.failure t)).completed_requests
              = r.completed_requests)
      ∧ (∀ (r : Report) (d : ℚ),
          (applyOp r (AggOp.setDuration d)).latencies = r.latencies
            ∧ (applyOp r (AggOp.setDuration d)).completed_requests
              = r.completed_requests)
      ∧ (∀ (r : Report) (h : String) (p : Nat),
          (applyOp r (AggOp.setHostPort h p)).latencies = r.latencies
            ∧ (applyOp r (AggOp.setHostPort h p)).completed_requests
              = r.completed_requests)
      ∧ (∀ (r : Report) (c : Nat),
          (applyOp r (AggOp.setConcurrency c)).latencies = r.latencies
            ∧ (applyOp r (AggOp.setConcurrency c)).completed_requests
              = r.completed_requests)
      ∧ (∀ r : Report,
          (applyOp r AggOp.sortLatencies).latencies.length
              = r.latencies.length
            ∧ (applyOp r AggOp.sortLatencies).completed_requests
              = r.completed_requests) := by
  refine ⟨fun ops => applyOps_latencies_completed ops Report.default rfl,
    ?_, ?_, ?_, ?_, ?_, ?_⟩ <;> intros <;>
    simp [applyOp, recordSuccess, recordFailure]

/-- C8: when the pre-flight target is unreachable — the URL fails to parse
to a host, or the bare TCP connection fails — `run` returns the fatal
"Failed to resolve" error without dispatching any batch, and the aggregator
still has zero completed and zero failed requests. -/
theorem c8_preflight_unreachable (cfg : Config) (parse : Option UrlParts)
    (connectOk : Bool) (env : List TaskResult) (sched : List Bool)
    (hunreach : parse = none ∨ connectOk = false) :
    run cfg parse connectOk env sched
        = Except.error ("Failed to resolve " ++ cfg.url)
      ∧ ((is_url_reachable (runner_new cfg.concurrency) parse
            connectOk).1).completed_requests = 0
      ∧ ((is_url_reachable (runner_new cfg.concurrency) parse
            connectOk).1).failed_requests = 0 := by
  have hpre : (is_url_reachable (runner_new cfg.concurrency) parse connectOk).2
      = false := by
    rcases hunreach with h | h
    · rw [h]
      rfl
    · cases parse <;> simp [is_url_reachable, h]
  refine ⟨?_, ?_, ?_⟩
  · simp [run, hpre]
  · cases parse <;> simp [is_url_reachable, runner_new, Report.default]
  · cases parse <;> simp [is_url_reachable, runner_new, Report.default]

theorem c8_preflight_witness :
    run ⟨1, 1, TestType.RequestCount, "http://a"⟩ none true [] []
      = Except.error ("Failed to resolve " ++ "http://a") :=
  (c8_preflight_unreachable ⟨1, 1, TestType.RequestCount, "http://a"⟩ none true
    [] [] (Or.inl rfl)).1

/-- C9 counterexample: with a URL parsing to host "example.com" and port 80
but a failing bare connection, the pre-flight reports failure yet the
aggregator's host and port have already been recorded — they are not left at
the default values. -/
theorem c9_host_port_set_despite_failure :
    (is_url_reachable (runner_new 1) (some ⟨"example.com", 80⟩) false).2 = false
      ∧ ((is_url_reachable (runner_new 1)
          (some ⟨"example.com", 80⟩) false).1).host = "example.com"
      ∧ ((is_url_reachable (runner_new 1)
          (some ⟨"example.com", 80⟩) false).1).port = 80
      ∧ ((is_url_reachable (runner_new 1)
          (some ⟨"example.com", 80⟩) false).1).host ≠ Report.default.host := by
  refine ⟨rfl, rfl, rfl, ?_⟩
  decide

/-- C9 amended: the pre-flight writes host and port into the aggregator as
soon as the URL parses to a valid host — before the connection attempt — so
they are recorded whether or not the connection succeeds; only a URL-parse
failure leaves the report untouched, and the pre-flight never modifies the
request counters. -/
theorem c9_host_port_recorded_on_parse (r : Report) (u : UrlParts)
    (connectOk : Bool) :
    ((is_url_reachable r (some u) connectOk).1).host = u.host
      ∧ ((is_url_reachable r (some u) connectOk).1).port = u.port
      ∧ ((is_url_reachable r (some u) connectOk).1).completed_requests
        = r.completed_requests
      ∧ ((is_url_reachable r (some u) connectOk).1).failed_requests
        = r.failed_requests
      ∧ (is_url_reachable r (some u) connectOk).2 = connectOk
      ∧ is_url_reachable r none connectOk = (r, false) :=
  ⟨rfl, rfl, rfl, rfl, rfl, rfl⟩

/-- C10: at every observation point of the aggregator,
`timeouts ≤ failedRequests`: both counters start at zero, a failure
increments failedRequests by exactly one and timeouts by at most one inside
the same critical section, and no other locked operation changes either
counter. -/
theorem c10_timeouts_le_failed :
    (∀ ops : List AggOp,
        (applyOps Report.default ops).timeouts
          ≤ (applyOps Report.default ops).failed_requests)
      ∧ Report.default.timeouts = 0
      ∧ Report.default.failed_requests = 0
      ∧ (∀ (r : Report) (t : Bool),
          (applyOp r (AggOp.failure t)).failed_requests
              = r.failed_requests + 1
            ∧ (applyOp r (AggOp.failure t)).timeouts
              = r.timeouts + (if t then 1 else 0))
      ∧ (∀ (r : Report) (lat : ℚ) (len st : Nat) (sv : Option String),
          (applyOp r (AggOp.success lat len st sv)).timeouts = r.timeouts
            ∧ (applyOp r (AggOp.success lat len st sv)).failed_requests
              = r.failed_requests)
      ∧ (∀ (r : Report) (d : ℚ),
          (applyOp r (AggOp.setDuration d)).timeouts = r.timeouts
            ∧ (applyOp r (AggOp.setDuration d)).failed_requests
              = r.failed_requests)
      ∧ (∀ (r : Report) (h : String) (p : Nat),
          (applyOp r (AggOp.setHostPort h p)).timeouts = r.timeouts
            ∧ (applyOp r (AggOp.setHostPort h p)).failed_requests
              = r.failed_requests)
      ∧ (∀ (r : Report) (c : Nat),
          (applyOp r (AggOp.setConcurrency c)).timeouts = r.timeouts
            ∧ (applyOp r (AggOp.setConcurrency c)).failed_requests
              = r.failed_requests)
      ∧ (∀ r : Report,
          (applyOp r AggOp.sortLatencies).timeouts = r.timeouts
            ∧ (applyOp r AggOp.sortLatencies).failed_requests
              = r.failed_requests) := by
  refine ⟨fun ops => applyOps_timeouts_le ops Report.default (le_refl 0),
    rfl, rfl, ?_, ?_, ?_, ?_, ?_, ?_⟩ <;> intros <;>
    simp [applyOp, recordSuccess, recordFailure]
